import Mathlib

set_option autoImplicit false

/-!
# MeshNet — shallow embedding and verification

This file embeds the DHT core of the MeshNet repository (Go) in Lean 4 and
proves or refutes the frozen claims about it.  Each definition is translated
from the Go source; the file/line of the source is named in its doc comment.

Modelling conventions:
* machine integers are `Int`/`Nat` (no overflow is relevant to any claim);
* wall-clock time (`time.Now()`) is passed explicitly as an `Int` of Unix
  seconds named `now`;
* Ed25519 is modelled symbolically: a signature is the pair of the signing
  key and the signed payload, verification checks both components — the
  standard perfect-cryptography model (deterministic signatures, no
  forgeries, no hash collisions);
* `sha256 ∘ json.Marshal` of the signed record fields is modelled by the
  tuple of those fields (collision-free serialization assumption);
* hex-encoded string fields (`public_key`, `signature`) are modelled by
  `HexField α`: a string either decodes to a value of `α` or is one of
  infinitely many invalid strings;
* fallible Go functions returning `error` become `Except String` or
  `Option`; methods that mutate a struct take and return explicit state.
-/

namespace MeshNet

/-! ## Symbolic Ed25519 (crypto/ed25519 as used by the sources) -/

/-- Symbolic Ed25519 private key, identified by its seed. -/
structure PrivateKey where
  sk : Nat
deriving DecidableEq, Repr

/-- Symbolic Ed25519 public key. -/
structure PublicKey where
  pk : Nat
deriving DecidableEq, Repr

/-- Models `priv.Public()`: the public key derived from a private key. -/
def PrivateKey.publicKey (k : PrivateKey) : PublicKey := ⟨k.sk⟩

/-- Models a hex-encoded string field: either the encoding of a value of `α`
(`hex.DecodeString` succeeds and the bytes are well-formed) or one of the
infinitely many strings on which decoding fails. -/
inductive HexField (α : Type) where
  | valid : α → HexField α
  | invalid : Nat → HexField α
deriving DecidableEq, Repr

/-- Models `hex.DecodeString` on a `HexField`. -/
def HexField.decode {α : Type} : HexField α → Option α
  | .valid a => some a
  | .invalid _ => none

/-- Decidable equality of `Except` results, so that witnesses can be checked
by `decide`. -/
instance instDecEqExceptResult {ε α : Type} [DecidableEq ε] [DecidableEq α] :
    DecidableEq (Except ε α)
  | .error e1, .error e2 =>
    if h : e1 = e2 then .isTrue (h ▸ rfl) else .isFalse (fun hc => h (by injection hc))
  | .error _, .ok _ => .isFalse (fun hc => Except.noConfusion hc)
  | .ok _, .error _ => .isFalse (fun hc => Except.noConfusion hc)
  | .ok a1, .ok a2 =>
    if h : a1 = a2 then .isTrue (h ▸ rfl) else .isFalse (fun hc => h (by injection hc))

/-! ## Record and signing (src/unnamed/part_005, the DHT store file) -/

/-- Models the hex key field of a record. -/
abbrev PubKeyHex := HexField PublicKey

/-- Signing payload: models the SHA-256 digest of the canonical JSON encoding
of the signed record fields (part_005:33-52, `Record.SigningPayload`).  The
digest is modelled by the tuple of the fields themselves (collision-free
hash and deterministic serialization assumption): two payloads are equal
iff all signed fields agree. -/
structure Payload where
  Name : String
  Address : String
  PublicKey : PubKeyHex
  Services : List String
  GroupKey : String
  Expires : Int
deriving DecidableEq, Repr

/-- Symbolic Ed25519 signature: records which key signed which payload. -/
structure Sig where
  sk : Nat
  msg : Payload
deriving DecidableEq, Repr

/-- Models the hex signature field of a record. -/
abbrev SigHex := HexField Sig

/-- Models `ed25519.Sign`. -/
def ed25519Sign (k : PrivateKey) (msg : Payload) : Sig := ⟨k.sk, msg⟩

/-- Models `ed25519.Verify`: the signature must have been produced over
exactly this payload by the private key matching `pub`. -/
def ed25519Verify (pub : PublicKey) (msg : Payload) (sig : Sig) : Bool :=
  decide (sig.sk = pub.pk) && decide (sig.msg = msg)

/-- The DHT record (part_005:15-23). -/
structure Record where
  Name : String
  Address : String
  PublicKey : PubKeyHex
  Services : List String
  GroupKey : String
  Signature : SigHex
  Expires : Int
deriving DecidableEq, Repr

/-- `Record.IsExpired` (part_005:25-27): `time.Now().After(time.Unix(r.Expires, 0))`. -/
def Record.IsExpired (r : Record) (now : Int) : Bool := decide (r.Expires < now)

/-- `Record.IsPublic` (part_005:29-31). -/
def Record.IsPublic (r : Record) : Bool := decide (r.GroupKey = "")

/-- `Record.SigningPayload` (part_005:33-52): hash of all fields except the
signature. -/
def Record.SigningPayload (r : Record) : Payload :=
  ⟨r.Name, r.Address, r.PublicKey, r.Services, r.GroupKey, r.Expires⟩

/-- `Record.Verify` (part_005:54-71): decode the key, decode the signature,
check the signature over the signing payload. -/
def Record.Verify (r : Record) : Except String Unit :=
  match r.PublicKey.decode with
  | none => .error "invalid public key"
  | some pub =>
    match r.Signature.decode with
    | none => .error "invalid signature"
    | some sig =>
      if ed25519Verify pub r.SigningPayload sig then .ok ()
      else .error "signature verification failed"

/-! ## Store (part_005:80-209) -/

/-- The store's `records map[string]Record`, modelled as an association list
(Go map keys are unique; theorems that need it assume key-nodup). -/
abbrev StoreState := List (String × Record)

/-- Models map lookup `s.records[name]`. -/
def storeFind (s : StoreState) (name : String) : Option Record :=
  (s.find? (fun p => decide (p.1 = name))).map Prod.snd

/-- Models map assignment `s.records[name] = r`: replace the entry for the
key if present, otherwise append. -/
def storeInsert (name : String) (r : Record) : StoreState → StoreState
  | [] => [(name, r)]
  | p :: rest => if p.1 = name then (name, r) :: rest else p :: storeInsert name r rest

/-- `Store.Put` (part_005:101-119): reject expired records, reject invalid
signatures, reject a name owned by a different key, otherwise store.  The Go
method mutates the map and returns `error`; the model returns the resulting
state together with the result (error paths leave the state unchanged, as in
the source where the early `return` precedes the map write). -/
def Store.Put (s : StoreState) (now : Int) (r : Record) : StoreState × Except String Unit :=
  if r.IsExpired now then (s, .error "record is already expired")
  else
    match r.Verify with
    | .error e => (s, .error ("invalid record: " ++ e))
    | .ok () =>
      match storeFind s r.Name with
      | some existing =>
        if existing.PublicKey ≠ r.PublicKey then
          (s, .error ("name " ++ r.Name ++ " is owned by a different key"))
        else (storeInsert r.Name r s, .ok ())
      | none => (storeInsert r.Name r s, .ok ())

/-- `Store.Get` (part_005:121-133): miss when absent or expired. -/
def Store.Get (s : StoreState) (now : Int) (name : String) : Option Record :=
  match storeFind s name with
  | none => none
  | some r => if r.IsExpired now then none else some r

/-- `Store.GetPublic` (part_005:135-144). -/
def Store.GetPublic (s : StoreState) (now : Int) (name : String) : Option Record :=
  match Store.Get s now name with
  | none => none
  | some r => if r.IsPublic then some r else none

/-- `Store.GetForGroup` (part_005:146-155). -/
def Store.GetForGroup (s : StoreState) (now : Int) (name : String) (groupKey : String) :
    Option Record :=
  match Store.Get s now name with
  | none => none
  | some r => if r.GroupKey = groupKey then some r else none

/-- `Store.Delete` (part_005:157-161). -/
def Store.Delete (s : StoreState) (name : String) : StoreState :=
  s.filter (fun p => !decide (p.1 = name))

/-- `Store.All` (part_005:163-174): snapshot of the non-expired records. -/
def Store.All (s : StoreState) (now : Int) : List Record :=
  (s.filter (fun p => !(p.2.IsExpired now))).map Prod.snd

/-- `Store.Size` (part_005:176-180): `len(s.records)` — counts every entry
of the map, with no expiry filter. -/
def Store.Size (s : StoreState) : Nat := s.length

/-- `Store.cleanup` (part_005:195-209): the sweeper body, deleting every
expired record. -/
def Store.cleanup (s : StoreState) (now : Int) : StoreState :=
  s.filter (fun p => !(p.2.IsExpired now))

/-- Spec-side definition for the refinement comparison of claim C8, written
from the spec's words "`size()` — non-expired count": the number of stored
records that are not expired. -/
def specStoreSizeNonExpired (s : StoreState) (now : Int) : Nat :=
  (s.filter (fun p => !(p.2.IsExpired now))).length

/-! ## CreateRecord (src/dht/register.go) -/

/-- `RecordTTL` (part_005:13): one hour, in Unix seconds. -/
def RecordTTL : Int := 3600

/-- `RegisterOptions` (register.go:11-18).  `PrivateKey` is `Option` because
the Go field is a nilable slice; `TTL` is in seconds, `0` meaning the
default. -/
structure RegisterOptions where
  Name : String
  Address : String
  Services : List String
  GroupKey : String
  PrivateKey : Option PrivateKey
  TTL : Int
deriving Repr

/-- `CreateRecord` (register.go:20-55): validate the options, build the
record with `expires = now + ttl`, sign the signing payload, attach the
signature. -/
def CreateRecord (now : Int) (opts : RegisterOptions) : Except String Record :=
  if opts.Name = "" then .error "name cannot be empty"
  else if opts.Address = "" then .error "address cannot be empty"
  else
    match opts.PrivateKey with
    | none => .error "private key cannot be nil"
    | some key =>
      let ttl := if opts.TTL = 0 then RecordTTL else opts.TTL
      let expires := now + ttl
      let payload : Payload :=
        ⟨opts.Name, opts.Address, .valid key.publicKey, opts.Services, opts.GroupKey, expires⟩
      .ok { Name := opts.Name
            Address := opts.Address
            PublicKey := .valid key.publicKey
            Services := opts.Services
            GroupKey := opts.GroupKey
            Signature := .valid (ed25519Sign key payload)
            Expires := expires }

/-! ## NodeID, XOR metric, routing table (src/unnamed/part_006) -/

/-- `NodeID` is `[32]byte` in Go; modelled as a list of byte values.  All
operations traverse the bytes most-significant first, as the Go loops do. -/
abbrev NodeID := List Nat

/-- Well-formedness of a `NodeID`: 32 bytes, each below 256 (automatic for
the Go array type). -/
def NodeID.wf (id : NodeID) : Prop := id.length = 32 ∧ ∀ b ∈ id, b < 256

/-- `NodeID.XOR` (part_006:36-42), byte-wise. -/
def NodeID.XOR (a b : NodeID) : NodeID := List.zipWith Nat.xor a b

/-- Lexicographic byte comparison used by `NodeID.Less` (part_006:44-53):
the first differing byte decides; equal lists compare false. -/
def bytesLess : List Nat → List Nat → Bool
  | a :: as, b :: bs => if a ≠ b then decide (a < b) else bytesLess as bs
  | _, _ => false

/-- `NodeID.Less` (part_006:44-53): compare XOR distances to `target`. -/
def NodeID.Less (id other target : NodeID) : Bool :=
  bytesLess (id.XOR target) (other.XOR target)

/-- The inner loop of `bucketIndex` (part_006:60-64): count how often a
byte must be shifted left before bit `0x80` is set.  The Go loop runs on a
nonzero byte and terminates within 8 steps; the model carries that bound as
fuel. -/
def clzLoop : Nat → Nat → Nat
  | 0, _ => 0
  | fuel + 1, b => if b &&& 0x80 = 0 then clzLoop fuel ((b <<< 1) % 256) + 1 else 0

/-- The byte scan of `bucketIndex` (part_006:55-69): the first nonzero byte
of the XOR decides; all-zero XOR yields `-1`. -/
def bucketIndexAux : List Nat → Nat → Int
  | [], _ => -1
  | b :: rest, i => if b ≠ 0 then Int.ofNat (i * 8 + clzLoop 8 b) else bucketIndexAux rest (i + 1)

/-- `NodeID.bucketIndex` (part_006:55-69). -/
def NodeID.bucketIndex (self other : NodeID) : Int :=
  bucketIndexAux (self.XOR other) 0

/-- `Contact` (part_006:71-75); the `net.IP` address is modelled by its
string form. -/
structure Contact where
  ID : NodeID
  Address : String
  Port : Int
deriving DecidableEq, Repr

/-- `Contact.Addr` (part_006:77-79): the dial string `"[ip]:port"`. -/
def Contact.Addr (c : Contact) : String :=
  "[" ++ c.Address ++ "]:" ++ toString c.Port

/-- `K` (part_006:12): bucket capacity and replication factor. -/
def K : Nat := 20

/-- `RoutingTable` (part_006:81-85): `buckets [256][]Contact` modelled as a
function from the bucket index; only indices `0..255` are ever written,
since `bucketIndex` of 32-byte IDs is below 256. -/
structure RoutingTable where
  self : NodeID
  buckets : Nat → List Contact

/-- `NewRoutingTable` (part_006:87-91): all buckets empty. -/
def NewRoutingTable (self : NodeID) : RoutingTable :=
  ⟨self, fun _ => []⟩

/-- The replace loop of `Add` (part_006:111-119) and the eviction loop of
`Remove` (part_006:137-142): drop the first contact with the given ID. -/
def removeFirstByID (id : NodeID) : List Contact → List Contact
  | [] => []
  | x :: xs => if x.ID = id then xs else x :: removeFirstByID id xs

/-- The membership test of `Add`'s loop: some contact in the bucket has this
ID. -/
def containsID (id : NodeID) (l : List Contact) : Bool :=
  l.any (fun x => decide (x.ID = id))

/-- `RoutingTable.Add` (part_006:93-125): skip self, skip undefined bucket
index, move-to-tail on duplicate ID, append if below `K`, otherwise drop. -/
def RoutingTable.Add (rt : RoutingTable) (c : Contact) : RoutingTable :=
  if c.ID = rt.self then rt
  else
    match rt.self.bucketIndex c.ID with
    | .negSucc _ => rt
    | .ofNat idx =>
      let bucket := rt.buckets idx
      if containsID c.ID bucket then
        { rt with buckets := Function.update rt.buckets idx (removeFirstByID c.ID bucket ++ [c]) }
      else if bucket.length < K then
        { rt with buckets := Function.update rt.buckets idx (bucket ++ [c]) }
      else rt

/-- `RoutingTable.Remove` (part_006:127-143). -/
def RoutingTable.Remove (rt : RoutingTable) (id : NodeID) : RoutingTable :=
  match rt.self.bucketIndex id with
  | .negSucc _ => rt
  | .ofNat idx =>
    { rt with buckets := Function.update rt.buckets idx (removeFirstByID id (rt.buckets idx)) }

/-- The bucket concatenation of `Closest` and `Size` (part_006:149-152,
168-171): all contacts, in bucket order over the 256 buckets. -/
def RoutingTable.allContacts (rt : RoutingTable) : List Contact :=
  (List.range 256).flatMap rt.buckets

/-- Sorted insertion by ascending XOR distance to `target`; folding it over
a list models the comparison sort of part_006:154-156 (and the in-place
insertion sort of lookup.go:57-64), which orders by `Less` to the target. -/
def insertByDist (target : NodeID) (c : Contact) : List Contact → List Contact
  | [] => [c]
  | x :: xs => if c.ID.Less x.ID target then c :: x :: xs else x :: insertByDist target c xs

/-- Sort contacts ascending by XOR distance to `target`. -/
def sortByDist (target : NodeID) (l : List Contact) : List Contact :=
  l.foldr (insertByDist target) []

/-- `RoutingTable.Closest` (part_006:145-162): collect all, sort by distance
to `target`, truncate to `count`. -/
def RoutingTable.Closest (rt : RoutingTable) (target : NodeID) (count : Nat) : List Contact :=
  (sortByDist target rt.allContacts).take count

/-- `RoutingTable.Size` (part_006:164-173): total number of stored
contacts. -/
def RoutingTable.Size (rt : RoutingTable) : Nat :=
  rt.allContacts.length

/-- The states reachable from an empty routing table by `Add` and `Remove`
(claim C6's state space). -/
inductive Reachable : RoutingTable → Prop where
  | empty (self : NodeID) : Reachable (NewRoutingTable self)
  | add (rt : RoutingTable) (c : Contact) : Reachable rt → Reachable (rt.Add c)
  | remove (rt : RoutingTable) (id : NodeID) : Reachable rt → Reachable (rt.Remove id)

/-- The routing-table invariant: per-bucket capacity, correct placement of
every contact in the bucket its ID hashes to, absence of self, and
per-bucket ID uniqueness. -/
def RoutingTable.Inv (rt : RoutingTable) : Prop :=
  ∀ i : Nat,
    (rt.buckets i).length ≤ K ∧
    (∀ c ∈ rt.buckets i, c.ID ≠ rt.self ∧ rt.self.bucketIndex c.ID = Int.ofNat i) ∧
    ((rt.buckets i).map Contact.ID).Nodup

/-! ## RecordID and the iterative value lookup (src/dht/lookup.go) -/

/-- Models `sha256.Sum256([]byte(name))` of `RecordID` (part_005:73-78) as
an arbitrary but fixed computable 32-byte function of the name; no claim
depends on the digest's value. -/
def sha256Model (s : String) : List Nat :=
  (List.range 32).map (fun i => (s.foldl (fun a c => (a * 31 + c.toNat) % 256) 7 + i) % 256)

/-- `RecordID` (part_005:73-78): the DHT key of a record name. -/
def RecordID (name : String) : NodeID := sha256Model name

/-- `alpha` (lookup.go:10): per-round query parallelism. -/
def alpha : Nat := 3

/-- `ContactInfo` (rpc.go:52-56), as received over the wire: the hex `id`
may fail to decode (`none`) and the `addr` may fail to parse as an IP
(`none`), in which case lookup.go:211-217 skips the entry. -/
structure ContactInfo where
  ID : Option NodeID
  Addr : Option String
  Port : Int
deriving Repr

/-- The contact-parsing loop of `LookupValue` (lookup.go:209-224) and
`LookupNode` (lookup.go:128-143): keep entries whose id and address
parse. -/
def parseContacts (l : List ContactInfo) : List Contact :=
  l.filterMap (fun ci =>
    match ci.ID, ci.Addr with
    | some id, some ip => some ⟨id, ip, ci.Port⟩
    | _, _ => none)

/-- `lookupState` (lookup.go:12-22); `contacted` is the key set of the Go
map. -/
structure LookupState where
  target : NodeID
  self : NodeID
  contacted : List NodeID
  candidates : List Contact

/-- `newLookupState` (lookup.go:24-32). -/
def newLookupState (self target : NodeID) (seeds : List Contact) : LookupState :=
  ⟨target, self, [], seeds⟩

/-- The filtering loop of `addCandidates` (lookup.go:38-55): skip self,
skip contacted, skip duplicates, append the rest in order. -/
def addCandidatesLoop (self : NodeID) (contacted : List NodeID) :
    List Contact → List Contact → List Contact
  | cands, [] => cands
  | cands, c :: rest =>
    if c.ID = self then addCandidatesLoop self contacted cands rest
    else if contacted.contains c.ID then addCandidatesLoop self contacted cands rest
    else if containsID c.ID cands then addCandidatesLoop self contacted cands rest
    else addCandidatesLoop self contacted (cands ++ [c]) rest

/-- `lookupState.addCandidates` (lookup.go:34-65): merge new contacts and
re-sort the candidates by distance to the target. -/
def LookupState.addCandidates (ls : LookupState) (contacts : List Contact) : LookupState :=
  { ls with candidates :=
      sortByDist ls.target (addCandidatesLoop ls.self ls.contacted ls.candidates contacts) }

/-- `lookupState.nextBatch` (lookup.go:67-81): the first `alpha` candidates
not yet contacted. -/
def LookupState.nextBatch (ls : LookupState) : List Contact :=
  (ls.candidates.filter (fun c => !(ls.contacted.contains c.ID))).take alpha

/-- `lookupState.markContacted` (lookup.go:83-87). -/
def LookupState.markContacted (ls : LookupState) (id : NodeID) : LookupState :=
  { ls with contacted := id :: ls.contacted }

/-- The reply of one `SendFindValue` call (rpc.go:251-293): `record` on
FOUND_VALUE, `closer` on FOUND_NODES, both `none` on NOT_FOUND. -/
structure FindValueReply where
  record : Option Record
  closer : Option (List ContactInfo)

/-- The network as seen by a value lookup: what `SendFindValue(addr, self,
name, groupKey)` yields for each dialed address; `none` models a transport
error. -/
abbrev Network := String → String → String → Option FindValueReply

/-- One round's batch processing in `LookupValue` (lookup.go:183-228),
sequentialized in batch order (the Go goroutines run concurrently and the
first FOUND_VALUE wins the one-shot channel; claims C2 and C3 are
insensitive to the interleaving): mark contacted, on transport error evict
the contact from the routing table (lookup.go:195-198), return the record
on a hit, fold closer contacts into the candidates otherwise. -/
def processBatch (net : Network) (name groupKey : String) :
    LookupState → RoutingTable → List Contact → LookupState × RoutingTable × Option Record
  | ls, table, [] => (ls, table, none)
  | ls, table, c :: rest =>
    let ls := ls.markContacted c.ID
    match net c.Addr name groupKey with
    | none => processBatch net name groupKey ls (table.Remove c.ID) rest
    | some reply =>
      match reply.record with
      | some r => (ls, table, some r)
      | none =>
        match reply.closer with
        | some cis => processBatch net name groupKey (ls.addCandidates (parseContacts cis)) table rest
        | none => processBatch net name groupKey ls table rest

/-- The outer round loop of `LookupValue` (lookup.go:174-243).  The Go loop
runs until the batch is empty; the model carries the number of remaining
rounds as fuel (an exhausted fuel returns a miss, like the per-round
timeout at lookup.go:240-241). -/
def lookupRounds (net : Network) (name groupKey : String) :
    Nat → LookupState → RoutingTable → Option Record × RoutingTable
  | 0, _, table => (none, table)
  | fuel + 1, ls, table =>
    match ls.nextBatch with
    | [] => (none, table)
    | c :: rest =>
      match processBatch net name groupKey ls table (c :: rest) with
      | (_, table2, some r) => (some r, table2)
      | (ls2, table2, none) => lookupRounds net name groupKey fuel ls2 table2

/-- `DHT` (dht.go:12-20), restricted to the state the lookup engine
touches. -/
structure DHT where
  table : RoutingTable
  store : StoreState

/-- `DHT.LookupValue` (lookup.go:164-246): compute the record's DHT key,
seed from the routing table's closest contacts — returning the error
`"no known nodes to query"` when there are none — and run the iterative
rounds.  The local record store of `d` is never consulted.  The result is
the returned record (`.ok none` is a miss) together with the routing table
after the lookup's evictions. -/
def DHT.LookupValue (d : DHT) (net : Network) (fuel : Nat) (name groupKey : String) :
    Except String (Option Record) × RoutingTable :=
  let target := RecordID name
  let seeds := d.table.Closest target K
  match seeds with
  | [] => (.error "no known nodes to query", d.table)
  | c :: rest =>
    let state := newLookupState d.table.self target (c :: rest)
    let res := lookupRounds net name groupKey fuel state d.table
    (.ok res.1, res.2)

/-! ## Pairing (src/pairing/contacts.go) -/

namespace Pairing

/-- `pairing.Contact` (contacts.go:14-19): a paired device as stored in the
local contact book. -/
structure Contact where
  Name : String
  Address : String
  PublicKey : PubKeyHex
  PairedAt : Int
deriving DecidableEq, Repr

/-- `PairingRecord` (contacts.go:144-150): the payload embedded in the
`services` field of a pairing DHT record. -/
structure PairingRecord where
  Name : String
  Address : String
  PublicKey : PubKeyHex
  Code : String
  IsResponse : Bool
deriving DecidableEq, Repr

/-- String form of a hex key field, for embedding in the marshalled pairing
payload. -/
def encodeHexPub : PubKeyHex → String
  | .valid k => "v" ++ toString k.pk
  | .invalid m => "x" ++ toString m

/-- Split a character list at every semicolon (the field separator of the
marshalled pairing payload). -/
def splitSemi : List Char → List (List Char)
  | [] => [[]]
  | c :: rest =>
    if c = ';' then [] :: splitSemi rest
    else
      match splitSemi rest with
      | [] => [[c]]
      | h :: t => (c :: h) :: t

/-- Accumulating decimal parser over characters. -/
def digitsToNatAux : Nat → List Char → Option Nat
  | acc, [] => some acc
  | acc, c :: rest =>
    if '0' ≤ c ∧ c ≤ '9' then digitsToNatAux (acc * 10 + (c.toNat - '0'.toNat)) rest
    else none

/-- Parse a nonempty decimal digit string. -/
def digitsToNat? : List Char → Option Nat
  | [] => none
  | c :: rest => digitsToNatAux 0 (c :: rest)

/-- Inverse of `encodeHexPub` on character lists; `none` on unrecognized
strings. -/
def decodeHexPubChars : List Char → Option PubKeyHex
  | 'v' :: rest => (digitsToNat? rest).map (fun n => HexField.valid ⟨n⟩)
  | 'x' :: rest => (digitsToNat? rest).map (fun n => HexField.invalid n)
  | _ => none

/-- Models the byte slicing `svc[n:]` of contacts.go:331 (ASCII fields). -/
def dropChars (s : String) (n : Nat) : String := String.mk (s.data.drop n)

/-- Models `json.Marshal` of a `PairingRecord` (contacts.go:296): a
deterministic field-order encoding, injective for fields that avoid the
separator. -/
def PairingRecord.marshal (pr : PairingRecord) : String :=
  pr.Name ++ ";" ++ pr.Address ++ ";" ++ encodeHexPub pr.PublicKey ++ ";" ++ pr.Code ++ ";" ++
    (if pr.IsResponse then "1" else "0")

/-- Models `json.Unmarshal` into a `PairingRecord` (contacts.go:331):
`none` is the decode-error case. -/
def unmarshalPairingRecord (s : String) : Option PairingRecord :=
  match splitSemi s.data with
  | [n, a, k, c, b] =>
    match decodeHexPubChars k, b with
    | some key, ['1'] => some ⟨String.mk n, String.mk a, key, String.mk c, true⟩
    | some key, ['0'] => some ⟨String.mk n, String.mk a, key, String.mk c, false⟩
    | _, _ => none
  | _ => none

/-- `PairingTTL` (contacts.go:133), in seconds. -/
def PairingTTL : Int := 600

/-- `createPairingRecord` (contacts.go:281-309): embed the pairing payload
under the `"pairing:"` service prefix and create a signed DHT record named
`recordName` with the pairing TTL. -/
def createPairingRecord (now : Int) (name address : String) (privKey : PrivateKey)
    (recordName : String) (isResponse : Bool) : Except String Record :=
  let pr : PairingRecord := ⟨name, address, .valid privKey.publicKey, recordName, isResponse⟩
  CreateRecord now
    { Name := recordName
      Address := address
      Services := ["pairing:" ++ pr.marshal]
      GroupKey := ""
      PrivateKey := some privKey
      TTL := PairingTTL }

/-- `pairingKey` (contacts.go:271-273).  Defined in the source but never
called: `Initiate` announces under the raw code instead. -/
def pairingKey (code : String) : String := "pair:" ++ code

/-- `pairingResponseKey` (contacts.go:276-278): the DHT name of the
joiner's response record. -/
def pairingResponseKey (code : String) : String := "pair:" ++ code ++ ":response"

/-- The record `Initiate` creates and announces (contacts.go:189): the
record name passed to `createPairingRecord` is the code itself. -/
def initiateRecord (now : Int) (name address : String) (privKey : PrivateKey) (code : String) :
    Except String Record :=
  createPairingRecord now name address privKey code false

/-- The DHT name `Initiate` polls with `LookupValue` while waiting for the
partner (contacts.go:199,206). -/
def initiatePollName (code : String) : String := pairingResponseKey code

/-- The DHT name `Join` looks up to find the initiator's record
(contacts.go:238). -/
def joinLookupName (code : String) : String := code

/-- The response record `Join` creates and announces (contacts.go:256-257):
named by `pairingResponseKey`. -/
def joinResponseRecord (now : Int) (name address : String) (privKey : PrivateKey) (code : String) :
    Except String Record :=
  createPairingRecord now name address privKey (pairingResponseKey code) true

/-- `parsePairingResponse` (contacts.go:312-347): extract a `Contact` from
a pairing DHT record.  With no services, fall back to the raw record
fields; with a service entry shorter than the `"pairing:"` prefix, error
(`none`); with an undecodable payload, fall back to the raw fields;
otherwise build the contact from the payload — with no cross-check of the
payload's `PublicKey` against the record's. -/
def parsePairingResponse (now : Int) (record : Record) : Option Contact :=
  match record.Services with
  | [] => some ⟨record.Name, record.Address, record.PublicKey, now⟩
  | svc :: _ =>
    if svc.length < 8 then none
    else
      match unmarshalPairingRecord (dropChars svc 8) with
      | none => some ⟨record.Name, record.Address, record.PublicKey, now⟩
      | some pr => some ⟨pr.Name, pr.Address, pr.PublicKey, now⟩

end Pairing

/-! ## Wire framing (src/dht/rpc.go) -/

/-- `Message` (rpc.go:26-29): a type byte and a JSON body, the body
modelled as raw bytes. -/
structure Message where
  type : Nat
  Body : List Nat
deriving DecidableEq, Repr

/-- `binary.BigEndian.Uint32` over the four length bytes
(rpc.go:110). -/
def be32 (b0 b1 b2 b3 : Nat) : Nat :=
  ((b0 * 256 + b1) * 256 + b2) * 256 + b3

/-- The frame-size cap of rpc.go:112: `1024*1024` bytes. -/
def maxMessageSize : Nat := 1024 * 1024

/-- `readMessage` (rpc.go:96-123) over the connection's byte stream: read
the type byte, the 4-byte big-endian length, reject bodies above
`maxMessageSize`, then read the body (`io.ReadFull` errors when the stream
is short). -/
def readMessage (stream : List Nat) : Except String Message :=
  match stream with
  | [] => .error "failed to read message type"
  | t :: rest =>
    match rest with
    | b0 :: b1 :: b2 :: b3 :: body =>
      let bodyLen := be32 b0 b1 b2 b3
      if bodyLen > maxMessageSize then .error "message too large"
      else if body.length < bodyLen then .error "failed to read message body"
      else .ok ⟨t, body.take bodyLen⟩
    | _ => .error "failed to read message length"

/-! ## Concrete fixtures used by witnesses and counterexamples -/

/-- Test private key 1. -/
def testKey1 : PrivateKey := ⟨1⟩

/-- Test private key 2. -/
def testKey2 : PrivateKey := ⟨2⟩

/-- A correctly signed record with the given name, address, key and
expiry (what `CreateRecord` produces for those values). -/
def mkSignedRecord (nm ad : String) (k : PrivateKey) (exp : Int) : Record :=
  { Name := nm, Address := ad, PublicKey := .valid k.publicKey, Services := [], GroupKey := "",
    Signature := .valid (ed25519Sign k ⟨nm, ad, .valid k.publicKey, [], "", exp⟩), Expires := exp }

/-- Record fixture: name `alice`, key 1, expires at 3600. -/
def testR1 : Record := mkSignedRecord "alice" "a1" testKey1 3600

/-- Record fixture: name `alice`, key 2 — an ownership conflict with
`testR1`. -/
def testR2 : Record := mkSignedRecord "alice" "a2" testKey2 3600

/-- Record fixture: name `alice`, key 1, later expiry — a refresh of
`testR1`. -/
def testR3 : Record := mkSignedRecord "alice" "a3" testKey1 7200

/-- Record fixture with a short TTL: name `bob`, key 1, expires at 10. -/
def testRShort : Record := mkSignedRecord "bob" "b1" testKey1 10

/-- Record fixture: name `bob`, key 2, expires at 3600. -/
def testRBob2 : Record := mkSignedRecord "bob" "b2" testKey2 3600

/-- Valid registration options for key 1. -/
def testOpts : RegisterOptions := ⟨"alice", "a1", [], "", some testKey1, 0⟩

/-- The all-zero self ID used in routing fixtures. -/
def testSelf : NodeID := List.replicate 32 0

/-- A contact whose ID hashes to bucket 0 relative to `testSelf`. -/
def testContact : Contact := ⟨128 :: List.replicate 31 0, "200::1", 9001⟩

/-- Routing table holding exactly `testContact`. -/
def testRT : RoutingTable := (NewRoutingTable testSelf).Add testContact

/-- A network on which every `SendFindValue` fails with a transport
error. -/
def netDown : Network := fun _ _ _ => none

/-- Pairing payload fixture whose embedded public key (99) is not the key
that signs the enclosing record. -/
def Pairing.testPayload : Pairing.PairingRecord :=
  ⟨"mallory", "m1", .valid ⟨99⟩, "MESH-ABCD", true⟩

/-- A DHT record correctly signed by key 2 whose embedded pairing payload
carries the foreign public key 99. -/
def Pairing.testMismatchRecord : Record :=
  { Name := "pair:MESH-ABCD:response"
    Address := "b1"
    PublicKey := .valid testKey2.publicKey
    Services := ["pairing:" ++ Pairing.testPayload.marshal]
    GroupKey := ""
    Signature := .valid (ed25519Sign testKey2
      ⟨"pair:MESH-ABCD:response", "b1", .valid testKey2.publicKey,
        ["pairing:" ++ Pairing.testPayload.marshal], "", 600⟩)
    Expires := 600 }

/-! ## Store lemmas -/

theorem storeFind_insert_self (s : StoreState) (name : String) (r : Record) :
    storeFind (storeInsert name r s) name = some r := by
  induction s with
  | nil => simp [storeInsert, storeFind]
  | cons p rest ih =>
    by_cases h : p.1 = name
    · simp [storeInsert, h, storeFind]
    · simpa [storeInsert, h, storeFind] using ih

theorem Put_ok_state (s s1 : StoreState) (now : Int) (r : Record)
    (h : Store.Put s now r = (s1, Except.ok ())) : s1 = storeInsert r.Name r s := by
  unfold Store.Put at h
  split at h
  · simp at h
  · split at h
    · simp at h
    · split at h
      · split at h
        · simp at h
        · exact (Prod.mk.injEq _ _ _ _ ▸ h).1.symm
      · exact (Prod.mk.injEq _ _ _ _ ▸ h).1.symm

theorem Put_conflict (s : StoreState) (now : Int) (rr ex : Record)
    (hfind : storeFind s rr.Name = some ex) (hk : ex.PublicKey ≠ rr.PublicKey) :
    ∃ e, Store.Put s now rr = (s, Except.error e) := by
  unfold Store.Put
  split
  · exact ⟨_, rfl⟩
  · split
    · exact ⟨_, rfl⟩
    · rw [hfind]
      simp only [hk, ite_true, ne_eq, not_false_eq_true]
      exact ⟨_, rfl⟩

theorem Put_refresh (s : StoreState) (now : Int) (r ex : Record)
    (hfind : storeFind s r.Name = some ex) (hk : ex.PublicKey = r.PublicKey)
    (hv : r.Verify = Except.ok ()) (he : r.IsExpired now = false) :
    Store.Put s now r = (storeInsert r.Name r s, Except.ok ()) := by
  unfold Store.Put
  rw [he, hv, hfind]
  simp [hk]

theorem storeFind_some_mem_keys (s : StoreState) (name : String) (r : Record)
    (h : storeFind s name = some r) : name ∈ s.map Prod.fst := by
  induction s with
  | nil => simp [storeFind] at h
  | cons p rest ih =>
    by_cases hp : p.1 = name
    · simp [hp]
    · simp only [storeFind, List.find?] at h ih
      rw [show (decide (p.1 = name)) = false by simpa using hp] at h
      simpa using Or.inr (ih h)

theorem keys_filter_subset (s : StoreState) (p : String × Record → Bool) (name : String)
    (h : name ∈ (s.filter p).map Prod.fst) : name ∈ s.map Prod.fst := by
  rcases List.mem_map.mp h with ⟨q, hq, hqe⟩
  exact List.mem_map.mpr ⟨q, (List.mem_filter.mp hq).1, hqe⟩

theorem find_none_of_not_mem_keys (s : StoreState) (name : String)
    (h : name ∉ s.map Prod.fst) : storeFind s name = none := by
  cases hf : storeFind s name with
  | none => rfl
  | some q => exact absurd (storeFind_some_mem_keys s name q hf) h

theorem cleanup_removes (s : StoreState) (now : Int) (name : String) (r : Record)
    (hnd : (s.map Prod.fst).Nodup) (hfind : storeFind s name = some r)
    (hexp : r.IsExpired now = true) :
    storeFind (Store.cleanup s now) name = none := by
  show storeFind (s.filter (fun p => !(p.2.IsExpired now))) name = none
  induction s with
  | nil => simp [storeFind] at hfind
  | cons p rest ih =>
    simp only [List.map_cons, List.nodup_cons] at hnd
    by_cases hp : p.1 = name
    · have hpr : p.2 = r := by
        simp only [storeFind, List.find?] at hfind
        rw [show (decide (p.1 = name)) = true by simpa using hp] at hfind
        simpa using hfind
      have hnone : storeFind (rest.filter (fun q => !(q.2.IsExpired now))) name = none := by
        apply find_none_of_not_mem_keys
        intro hmem
        exact absurd (hp ▸ keys_filter_subset rest _ name hmem) hnd.1
      rw [List.filter_cons]
      rw [show (!(p.2.IsExpired now)) = false by rw [hpr, hexp]; rfl]
      simpa using hnone
    · have hfr : storeFind rest name = some r := by
        simp only [storeFind, List.find?] at hfind
        rw [show (decide (p.1 = name)) = false by simpa using hp] at hfind
        exact hfind
      have hrec := ih hnd.2 hfr
      rw [List.filter_cons]
      split
      · simp only [storeFind, List.find?]
        rw [show (decide (p.1 = name)) = false by simpa using hp]
        exact hrec
      · exact hrec

theorem Put_fresh (s : StoreState) (now : Int) (r : Record)
    (hfind : storeFind s r.Name = none)
    (hv : r.Verify = Except.ok ()) (he : r.IsExpired now = false) :
    Store.Put s now r = (storeInsert r.Name r s, Except.ok ()) := by
  unfold Store.Put
  rw [he, hv, hfind]
  simp

/-! ## Claim C1 — store ownership semantics -/

/-- Claim C1: for any name, after `put(r1)` succeeds, a later `put(r2)` for
the same name signed by a different public key fails and leaves the stored
record unchanged, while `put(r3)` signed by the same key with a later
`expires` succeeds and replaces the stored record. -/
theorem C1_store_ownership (s s1 : StoreState) (now1 now2 now3 : Int) (r1 r2 r3 : Record)
    (hput : Store.Put s now1 r1 = (s1, Except.ok ()))
    (hn2 : r2.Name = r1.Name) (hk2 : r2.PublicKey ≠ r1.PublicKey)
    (hn3 : r3.Name = r1.Name) (hk3 : r3.PublicKey = r1.PublicKey)
    (hv3 : r3.Verify = Except.ok ()) (he3 : r3.IsExpired now3 = false)
    (hlater : r1.Expires < r3.Expires) :
    (∃ e, Store.Put s1 now2 r2 = (s1, Except.error e)) ∧
    storeFind (Store.Put s1 now2 r2).1 r1.Name = some r1 ∧
    Store.Put s1 now3 r3 = (storeInsert r3.Name r3 s1, Except.ok ()) ∧
    storeFind (Store.Put s1 now3 r3).1 r1.Name = some r3 := by
  have hs1 : s1 = storeInsert r1.Name r1 s := Put_ok_state s s1 now1 r1 hput
  have hfind1 : storeFind s1 r1.Name = some r1 := by
    rw [hs1]; exact storeFind_insert_self s r1.Name r1
  have hfind2 : storeFind s1 r2.Name = some r1 := by rw [hn2]; exact hfind1
  have hconf := Put_conflict s1 now2 r2 r1 hfind2 (fun h => hk2 h.symm)
  obtain ⟨e, he⟩ := hconf
  have hfind3 : storeFind s1 r3.Name = some r1 := by rw [hn3]; exact hfind1
  have hrefresh := Put_refresh s1 now3 r3 r1 hfind3 hk3.symm hv3 he3
  refine ⟨⟨e, he⟩, ?_, hrefresh, ?_⟩
  · rw [he]; exact hfind1
  · rw [hrefresh]
    show storeFind (storeInsert r3.Name r3 s1) r1.Name = some r3
    rw [← hn3]
    exact storeFind_insert_self s1 r3.Name r3

/-- Witness for C1 at concrete records: key-1 record `testR1` is stored,
the key-2 record `testR2` is refused, the key-1 refresh `testR3` replaces
it. -/
theorem C1_store_ownership_witness :
    (Store.Put [] 0 testR1 = ([("alice", testR1)], Except.ok ()) ∧
      testR2.Name = testR1.Name ∧ testR2.PublicKey ≠ testR1.PublicKey ∧
      testR3.Name = testR1.Name ∧ testR3.PublicKey = testR1.PublicKey ∧
      testR3.Verify = Except.ok () ∧ testR3.IsExpired 0 = false ∧
      testR1.Expires < testR3.Expires) ∧
    ((∃ e, Store.Put [("alice", testR1)] 0 testR2 = ([("alice", testR1)], Except.error e)) ∧
      storeFind (Store.Put [("alice", testR1)] 0 testR2).1 testR1.Name = some testR1 ∧
      Store.Put [("alice", testR1)] 0 testR3 = (storeInsert testR3.Name testR3 [("alice", testR1)], Except.ok ()) ∧
      storeFind (Store.Put [("alice", testR1)] 0 testR3).1 testR1.Name = some testR3) :=
  ⟨⟨by decide, by decide, by decide, by decide, by decide, by decide, by decide, by decide⟩,
    C1_store_ownership [] [("alice", testR1)] 0 0 0 testR1 testR2 testR3
      (by decide) (by decide) (by decide) (by decide) (by decide) (by decide) (by decide)
      (by decide)⟩

/-! ## Claim C8 — what `Store.Size` counts -/

/-- Counterexample to claim C8 ("`size()` returns the number of non-expired
records"): the valid record `testRShort` is stored at time 0 and expires at
time 10; at time 20 the store still holds it, `Size` reports 1, while the
non-expired count of the spec is 0. -/
theorem C8_counterexample_size_counts_expired :
    Store.Put [] 0 testRShort = ([("bob", testRShort)], Except.ok ()) ∧
    Store.Size [("bob", testRShort)] = 1 ∧
    specStoreSizeNonExpired [("bob", testRShort)] 20 = 0 ∧
    Store.Size [("bob", testRShort)] ≠ specStoreSizeNonExpired [("bob", testRShort)] 20 := by
  refine ⟨by decide, by decide, by decide, by decide⟩

/-- Claim C8 as amended: `Store.Size` returns the total number of stored
entries — the non-expired count plus the expired entries the sweeper has
not yet removed — for every store state and time. -/
theorem C8_size_total_count (s : StoreState) (now : Int) :
    Store.Size s =
      specStoreSizeNonExpired s now + (s.filter (fun p => p.2.IsExpired now)).length := by
  unfold Store.Size specStoreSizeNonExpired
  induction s with
  | nil => rfl
  | cons p rest ih =>
    rw [List.length_cons, List.filter_cons, List.filter_cons]
    cases hp : p.2.IsExpired now <;> simp [hp] <;> omega

/-! ## Claim C10 — ownership check ignores expiry of the stored record -/

theorem mem_keys_storeInsert (s : StoreState) (name x : String) (r : Record)
    (h : x ∈ (storeInsert name r s).map Prod.fst) : x = name ∨ x ∈ s.map Prod.fst := by
  induction s with
  | nil => simpa [storeInsert] using h
  | cons p rest ih =>
    by_cases hp : p.1 = name
    · simp only [storeInsert, hp, if_true, List.map_cons, List.mem_cons] at h
      rcases h with h | h
      · exact Or.inl h
      · exact Or.inr (by simp [h])
    · simp only [storeInsert, hp, if_false, List.map_cons, List.mem_cons] at h
      rcases h with h | h
      · exact Or.inr (by simp [h])
      · rcases ih h with h2 | h2
        · exact Or.inl h2
        · exact Or.inr (by simp [h2])

theorem storeInsert_keys_nodup (s : StoreState) (name : String) (r : Record)
    (hnd : (s.map Prod.fst).Nodup) : ((storeInsert name r s).map Prod.fst).Nodup := by
  induction s with
  | nil => simp [storeInsert]
  | cons p rest ih =>
    simp only [List.map_cons, List.nodup_cons] at hnd
    by_cases hp : p.1 = name
    · simp only [storeInsert, hp, if_true, List.map_cons, List.nodup_cons]
      exact ⟨hp ▸ hnd.1, hnd.2⟩
    · simp only [storeInsert, hp, if_false, List.map_cons, List.nodup_cons]
      refine ⟨fun hmem => ?_, ih hnd.2⟩
      rcases mem_keys_storeInsert rest name p.1 r hmem with h | h
      · exact hp h
      · exact hnd.1 h

/-- Claim C10: `Store.Put`'s ownership check ignores expiry of the existing
record — after `put(r)` succeeds and `r` later expires, `get` already
misses the name, yet a `put(r2)` signed by a different key still fails and
changes nothing; only after the sweeper's `cleanup` does the different-key
`put(r2)` succeed. -/
theorem C10_ownership_ignores_expiry (s s1 : StoreState) (now now2 : Int) (r r2 : Record)
    (hnd : (s.map Prod.fst).Nodup)
    (hput : Store.Put s now r = (s1, Except.ok ()))
    (hexp : r.IsExpired now2 = true)
    (hn : r2.Name = r.Name) (hk : r2.PublicKey ≠ r.PublicKey)
    (hv2 : r2.Verify = Except.ok ()) (he2 : r2.IsExpired now2 = false) :
    Store.Get s1 now2 r.Name = none ∧
    (∃ e, Store.Put s1 now2 r2 = (s1, Except.error e)) ∧
    Store.Put (Store.cleanup s1 now2) now2 r2 =
      (storeInsert r2.Name r2 (Store.cleanup s1 now2), Except.ok ()) := by
  have hs1 : s1 = storeInsert r.Name r s := Put_ok_state s s1 now r hput
  have hfind1 : storeFind s1 r.Name = some r := by
    rw [hs1]; exact storeFind_insert_self s r.Name r
  have hnd1 : (s1.map Prod.fst).Nodup := by
    rw [hs1]; exact storeInsert_keys_nodup s r.Name r hnd
  refine ⟨?_, ?_, ?_⟩
  · unfold Store.Get
    rw [hfind1]
    simp [hexp]
  · exact Put_conflict s1 now2 r2 r (by rw [hn]; exact hfind1) (fun h => hk h.symm)
  · have hclean : storeFind (Store.cleanup s1 now2) r.Name = none :=
      cleanup_removes s1 now2 r.Name r hnd1 hfind1 hexp
    exact Put_fresh (Store.cleanup s1 now2) now2 r2 (by rw [hn]; exact hclean) hv2 he2

/-- Witness for C10 at concrete records: `testRShort` (expires at 10) is
stored at time 0; at time 20 the key-2 record `testRBob2` is still refused
until `cleanup` runs. -/
theorem C10_ownership_ignores_expiry_witness :
    ((([] : StoreState).map Prod.fst).Nodup ∧
      Store.Put [] 0 testRShort = ([("bob", testRShort)], Except.ok ()) ∧
      testRShort.IsExpired 20 = true ∧
      testRBob2.Name = testRShort.Name ∧ testRBob2.PublicKey ≠ testRShort.PublicKey ∧
      testRBob2.Verify = Except.ok () ∧ testRBob2.IsExpired 20 = false) ∧
    (Store.Get [("bob", testRShort)] 20 testRShort.Name = none ∧
      (∃ e, Store.Put [("bob", testRShort)] 20 testRBob2 = ([("bob", testRShort)], Except.error e)) ∧
      Store.Put (Store.cleanup [("bob", testRShort)] 20) 20 testRBob2 =
        (storeInsert testRBob2.Name testRBob2 (Store.cleanup [("bob", testRShort)] 20), Except.ok ())) :=
  ⟨⟨by decide, by decide, by decide, by decide, by decide, by decide, by decide⟩,
    C10_ownership_ignores_expiry [] [("bob", testRShort)] 0 20 testRShort testRBob2
      (by decide) (by decide) (by decide) (by decide) (by decide) (by decide) (by decide)⟩

/-! ## Claim C7 — record signing round-trip and tamper-evidence -/

theorem Verify_ok_iff (r : Record) :
    r.Verify = Except.ok () ↔
    ∃ p sg, r.PublicKey = HexField.valid p ∧ r.Signature = HexField.valid sg ∧
      sg.sk = p.pk ∧ sg.msg = r.SigningPayload := by
  obtain ⟨nm, ad, pk, sv, gk, sig, ex⟩ := r
  cases pk with
  | invalid m => simp [Record.Verify, HexField.decode]
  | valid p =>
    cases sig with
    | invalid m => simp [Record.Verify, HexField.decode]
    | valid sg =>
      simp [Record.Verify, HexField.decode, ed25519Verify, Record.SigningPayload,
        Bool.and_eq_true, decide_eq_true_eq]

theorem Verify_ok_inv (r : Record) (h : r.Verify = Except.ok ()) :
    ∃ p sg, r.PublicKey = HexField.valid p ∧ r.Signature = HexField.valid sg ∧
      sg.sk = p.pk ∧ sg.msg = r.SigningPayload :=
  (Verify_ok_iff r).mp h

theorem Verify_fails_of_payload_change (r r2 : Record) (hv : r.Verify = Except.ok ())
    (hsig : r2.Signature = r.Signature) (hpay : r2.SigningPayload ≠ r.SigningPayload) :
    r2.Verify ≠ Except.ok () := by
  intro hv2
  obtain ⟨p, sg, hpk, hsg, hsk, hmsg⟩ := Verify_ok_inv r hv
  obtain ⟨p2, sg2, hpk2, hsg2, hsk2, hmsg2⟩ := Verify_ok_inv r2 hv2
  have hseq : sg2 = sg := by
    have h1 := hsig ▸ hsg2
    rw [hsg] at h1
    injection h1 with h2
    exact h2.symm
  apply hpay
  rw [← hmsg2, hseq, hmsg]

theorem Verify_fails_of_signature_change (r : Record) (hv : r.Verify = Except.ok ())
    (v : SigHex) (hne : v ≠ r.Signature) :
    Record.Verify { r with Signature := v } ≠ Except.ok () := by
  intro hv2
  obtain ⟨p, sg, hpk, hsg, hsk, hmsg⟩ := Verify_ok_inv r hv
  obtain ⟨p2, sg2, hpk2, hsg2, hsk2, hmsg2⟩ := Verify_ok_inv _ hv2
  have hpeq : p2 = p := by
    have h1 : ({ r with Signature := v } : Record).PublicKey = r.PublicKey := rfl
    have := (h1 ▸ hpk2 : r.PublicKey = HexField.valid p2)
    rw [hpk] at this
    injection this with h2
    exact h2.symm
  have hmeq : sg2.msg = sg.msg := by
    have h1 : ({ r with Signature := v } : Record).SigningPayload = r.SigningPayload := rfl
    rw [hmsg2, hmsg, h1]
  have hskeq : sg2.sk = sg.sk := by rw [hsk2, hsk, hpeq]
  have hsgeq : sg2 = sg := by
    cases sg2; cases sg
    simp only [Sig.mk.injEq]
    exact ⟨hskeq, hmeq⟩
  apply hne
  have : ({ r with Signature := v } : Record).Signature = v := rfl
  rw [← this, hsg2, hsgeq, ← hsg]

/-- Claim C7: a record produced by `CreateRecord` from valid options
(non-empty name and address, present private key) passes `Verify`; and any
record passing `Verify` fails it after mutating the signature or any single
signed field (name, address, public key, services, group key, expires) to a
different value. -/
theorem C7_record_signing_roundtrip (now : Int) (opts : RegisterOptions) (key : PrivateKey)
    (hname : opts.Name ≠ "") (haddr : opts.Address ≠ "") (hkey : opts.PrivateKey = some key) :
    (∃ r, CreateRecord now opts = Except.ok r ∧ r.Verify = Except.ok ()) ∧
    (∀ r : Record, r.Verify = Except.ok () →
      (∀ v, v ≠ r.Signature → Record.Verify { r with Signature := v } ≠ Except.ok ()) ∧
      (∀ v, v ≠ r.Name → Record.Verify { r with Name := v } ≠ Except.ok ()) ∧
      (∀ v, v ≠ r.Address → Record.Verify { r with Address := v } ≠ Except.ok ()) ∧
      (∀ v, v ≠ r.PublicKey → Record.Verify { r with PublicKey := v } ≠ Except.ok ()) ∧
      (∀ v, v ≠ r.Services → Record.Verify { r with Services := v } ≠ Except.ok ()) ∧
      (∀ v, v ≠ r.GroupKey → Record.Verify { r with GroupKey := v } ≠ Except.ok ()) ∧
      (∀ v, v ≠ r.Expires → Record.Verify { r with Expires := v } ≠ Except.ok ())) := by
  constructor
  · unfold CreateRecord
    rw [if_neg hname, if_neg haddr, hkey]
    refine ⟨_, rfl, ?_⟩
    rw [Verify_ok_iff]
    exact ⟨key.publicKey, _, rfl, rfl, rfl, rfl⟩
  · intro r hv
    refine ⟨Verify_fails_of_signature_change r hv, ?_, ?_, ?_, ?_, ?_, ?_⟩ <;>
      (intro v hne
       refine Verify_fails_of_payload_change r _ hv rfl ?_
       intro heq
       simp only [Record.SigningPayload, Payload.mk.injEq, and_true, true_and] at heq
       exact hne heq)

/-- Witness for C7 at the concrete options `testOpts` (name `alice`,
address `a1`, key 1). -/
theorem C7_record_signing_roundtrip_witness :
    (testOpts.Name ≠ "" ∧ testOpts.Address ≠ "" ∧ testOpts.PrivateKey = some testKey1) ∧
    (∃ r, CreateRecord 0 testOpts = Except.ok r ∧ r.Verify = Except.ok ()) :=
  ⟨⟨by decide, by decide, by decide⟩,
    (C7_record_signing_roundtrip 0 testOpts testKey1 (by decide) (by decide) (by decide)).1⟩

/-! ## Claim C6 — routing-table invariant -/

theorem removeFirstByID_sublist (id : NodeID) (l : List Contact) :
    List.Sublist (removeFirstByID id l) l := by
  induction l with
  | nil => simp [removeFirstByID]
  | cons x xs ih =>
    by_cases h : x.ID = id
    · simp only [removeFirstByID, h, if_pos]
      exact List.sublist_cons_self x xs
    · simp only [removeFirstByID, h, if_neg, ite_false]
      exact List.Sublist.cons₂ x ih

theorem containsID_true_iff (id : NodeID) (l : List Contact) :
    containsID id l = true ↔ id ∈ l.map Contact.ID := by
  simp [containsID, List.any_eq_true, List.mem_map]

theorem removeFirstByID_length (id : NodeID) (l : List Contact)
    (h : containsID id l = true) :
    (removeFirstByID id l).length + 1 = l.length := by
  induction l with
  | nil => simp [containsID] at h
  | cons x xs ih =>
    by_cases hx : x.ID = id
    · simp [removeFirstByID, hx]
    · have hxs : containsID id xs = true := by
        simp only [containsID, List.any_cons] at h
        rcases Bool.or_eq_true_iff.mp h with h1 | h1
        · exact absurd (of_decide_eq_true h1) hx
        · exact h1
      simp only [removeFirstByID, hx, ite_false, List.length_cons]
      rw [← ih hxs]

theorem removeFirstByID_not_mem_self (id : NodeID) (l : List Contact)
    (hnd : (l.map Contact.ID).Nodup) :
    id ∉ (removeFirstByID id l).map Contact.ID := by
  induction l with
  | nil => simp [removeFirstByID]
  | cons x xs ih =>
    simp only [List.map_cons, List.nodup_cons] at hnd
    by_cases hx : x.ID = id
    · simp only [removeFirstByID, hx, if_pos]
      exact hx ▸ hnd.1
    · simp only [removeFirstByID, hx, ite_false, List.map_cons, List.mem_cons]
      rintro (h | h)
      · exact hx h.symm
      · exact ih hnd.2 h

theorem nodup_flatMap_ids (L : List Nat) (f : Nat → List Contact) (self : NodeID)
    (hnd : L.Nodup)
    (hbk : ∀ i ∈ L, ((f i).map Contact.ID).Nodup)
    (hplace : ∀ i ∈ L, ∀ c ∈ f i, NodeID.bucketIndex self c.ID = Int.ofNat i) :
    ((L.flatMap f).map Contact.ID).Nodup := by
  induction L with
  | nil => simp
  | cons i L ih =>
    rw [List.flatMap_cons, List.map_append, List.nodup_append]
    simp only [List.nodup_cons] at hnd
    refine ⟨hbk i (by simp), ?_, ?_⟩
    · exact ih hnd.2 (fun j hj => hbk j (by simp [hj])) (fun j hj => hplace j (by simp [hj]))
    · intro x hx1 hx2
      rcases List.mem_map.mp hx1 with ⟨c, hc, hce⟩
      rcases List.mem_map.mp hx2 with ⟨c2, hc2, hc2e⟩
      rcases List.mem_flatMap.mp hc2 with ⟨j, hj, hcj⟩
      have h1 := hplace i (by simp) c hc
      have h2 := hplace j (by simp [hj]) c2 hcj
      rw [hce] at h1
      rw [hc2e] at h2
      have : i = j := by
        have := h1.symm.trans h2
        exact Int.ofNat.inj this
      exact hnd.1 (this ▸ hj)

theorem inv_empty (self : NodeID) : (NewRoutingTable self).Inv := by
  intro i
  refine ⟨by simp [NewRoutingTable], by simp [NewRoutingTable], by simp [NewRoutingTable]⟩

theorem inv_add (rt : RoutingTable) (c : Contact) (h : rt.Inv) : (rt.Add c).Inv := by
  by_cases hself : c.ID = rt.self
  · simp only [RoutingTable.Add, if_pos hself]
    exact h
  cases hidx : rt.self.bucketIndex c.ID with
  | negSucc n =>
    simp only [RoutingTable.Add, if_neg hself, hidx]
    exact h
  | ofNat idx =>
    simp only [RoutingTable.Add, if_neg hself, hidx]
    by_cases hc : containsID c.ID (rt.buckets idx) = true
    · rw [if_pos hc]
      intro i
      by_cases hi : i = idx
      · subst hi
        simp only [Function.update_same]
        have hlen := removeFirstByID_length c.ID (rt.buckets i) hc
        have hsub := removeFirstByID_sublist c.ID (rt.buckets i)
        refine ⟨?_, ?_, ?_⟩
        · rw [List.length_append, List.length_singleton, hlen]
          exact (h i).1
        · intro x hx
          rcases List.mem_append.mp hx with hx1 | hx1
          · exact (h i).2.1 x (hsub.subset hx1)
          · have : x = c := by simpa using hx1
            exact this ▸ ⟨hself, hidx⟩
        · rw [List.map_append, List.map_singleton, List.nodup_append]
          refine ⟨((h i).2.2).sublist (hsub.map Contact.ID), List.nodup_singleton _, ?_⟩
          intro x hx1 hx2
          have : x = c.ID := by simpa using hx2
          exact removeFirstByID_not_mem_self c.ID (rt.buckets i) (h i).2.2 (this ▸ hx1)
      · simp only [Function.update_noteq hi]
        exact h i
    · rw [if_neg hc]
      by_cases hlen : (rt.buckets idx).length < K
      · rw [if_pos hlen]
        intro i
        by_cases hi : i = idx
        · subst hi
          simp only [Function.update_same]
          refine ⟨?_, ?_, ?_⟩
          · rw [List.length_append, List.length_singleton]
            exact hlen
          · intro x hx
            rcases List.mem_append.mp hx with hx1 | hx1
            · exact (h i).2.1 x hx1
            · have : x = c := by simpa using hx1
              exact this ▸ ⟨hself, hidx⟩
          · rw [List.map_append, List.map_singleton, List.nodup_append]
            refine ⟨(h i).2.2, List.nodup_singleton _, ?_⟩
            intro x hx1 hx2
            have hxc : x = c.ID := by simpa using hx2
            have : c.ID ∈ (rt.buckets i).map Contact.ID := hxc ▸ hx1
            exact hc ((containsID_true_iff c.ID (rt.buckets i)).mpr this)
        · simp only [Function.update_noteq hi]
          exact h i
      · rw [if_neg hlen]
        exact h

theorem inv_remove (rt : RoutingTable) (id : NodeID) (h : rt.Inv) : (rt.Remove id).Inv := by
  cases hidx : rt.self.bucketIndex id with
  | negSucc n =>
    simp only [RoutingTable.Remove, hidx]
    exact h
  | ofNat idx =>
    simp only [RoutingTable.Remove, hidx]
    intro i
    by_cases hi : i = idx
    · subst hi
      simp only [Function.update_same]
      have hsub := removeFirstByID_sublist id (rt.buckets i)
      refine ⟨le_trans hsub.length_le (h i).1, ?_, ((h i).2.2).sublist (hsub.map Contact.ID)⟩
      intro x hx
      exact (h i).2.1 x (hsub.subset hx)
    · simp only [Function.update_noteq hi]
      exact h i

theorem reachable_inv (rt : RoutingTable) (h : Reachable rt) : rt.Inv := by
  induction h with
  | empty self => exact inv_empty self
  | add rt c _ ih => exact inv_add rt c ih
  | remove rt id _ ih => exact inv_remove rt id ih

/-- Claim C6: in every routing-table state reachable from the empty table
by `Add` and `Remove`, each of the 256 buckets holds at most `K = 20`
contacts, each `NodeID` occupies at most one position across all buckets,
and the self ID is never present. -/
theorem C6_routing_table_invariant (rt : RoutingTable) (h : Reachable rt) :
    (∀ i < 256, (rt.buckets i).length ≤ 20) ∧
    (rt.allContacts.map Contact.ID).Nodup ∧
    (∀ c ∈ rt.allContacts, c.ID ≠ rt.self) := by
  have hinv := reachable_inv rt h
  refine ⟨fun i _ => (hinv i).1, ?_, ?_⟩
  · unfold RoutingTable.allContacts
    exact nodup_flatMap_ids (List.range 256) rt.buckets rt.self (List.nodup_range 256)
      (fun i _ => (hinv i).2.2) (fun i _ c hc => ((hinv i).2.1 c hc).2)
  · intro c hc
    rcases List.mem_flatMap.mp hc with ⟨j, _, hcj⟩
    exact ((hinv j).2.1 c hcj).1

/-- Witness for C6 at the concrete reachable state `testRT` (one `Add` from
the empty table). -/
theorem C6_routing_table_invariant_witness :
    (∀ i < 256, (testRT.buckets i).length ≤ 20) ∧
    (testRT.allContacts.map Contact.ID).Nodup ∧
    (∀ c ∈ testRT.allContacts, c.ID ≠ testRT.self) :=
  C6_routing_table_invariant testRT
    (Reachable.add (NewRoutingTable testSelf) testContact (Reachable.empty testSelf))

/-! ## Claim C2 — `LookupValue` and the local store -/

theorem flatMap_const_nil (L : List Nat) :
    (L.flatMap (fun _ => ([] : List Contact))) = [] := by
  induction L with
  | nil => rfl
  | cons i L ih => simpa using ih

theorem Closest_empty_table (self target : NodeID) (count : Nat) :
    (NewRoutingTable self).Closest target count = [] := by
  unfold RoutingTable.Closest RoutingTable.allContacts NewRoutingTable
  rw [flatMap_const_nil]
  rw [show sortByDist target [] = [] from rfl, List.take_nil]

/-- Claim C2 is false of the code: `DHT.LookupValue` (lookup.go:164-246)
never consults the local record store — when the routing table yields no
seed contacts it returns the error `"no known nodes to query"` even though
the requested name is held in the local store. -/
theorem C2_lookupValue_ignores_local_store (self : NodeID) (s : StoreState) (net : Network)
    (fuel : Nat) (now : Int) (name groupKey : String) (r : Record)
    (hhit : Store.Get s now name = some r) :
    (DHT.LookupValue ⟨NewRoutingTable self, s⟩ net fuel name groupKey).1 =
      Except.error "no known nodes to query" := by
  unfold DHT.LookupValue
  simp [Closest_empty_table]

/-- Witness for C2: the store holds the valid record `testR1` under
`alice`, yet the lookup fails. -/
theorem C2_lookupValue_ignores_local_store_witness :
    Store.Get [("alice", testR1)] 0 "alice" = some testR1 ∧
    (DHT.LookupValue ⟨NewRoutingTable testSelf, [("alice", testR1)]⟩ netDown 5 "alice" "").1 =
      Except.error "no known nodes to query" :=
  ⟨by decide,
    C2_lookupValue_ignores_local_store testSelf [("alice", testR1)] netDown 5 0 "alice" ""
      testR1 (by decide)⟩

/-! ## Claim C3 — eviction on transport error during a value lookup -/

set_option maxRecDepth 100000

/-- Claim C3 is false of the code: during a value lookup a transport error
does evict the failed contact — `LookupValue`'s error path
(lookup.go:195-198) calls `table.Remove`.  Concretely, with `testContact`
as the only routing-table entry and every `SendFindValue` failing, the
lookup leaves the routing table empty. -/
theorem C3_lookupValue_evicts_on_transport_error :
    testRT.Size = 1 ∧
    ((DHT.LookupValue ⟨testRT, []⟩ netDown 2 "alice" "").2).Size = 0 := by
  constructor
  · rfl
  · rfl

/-! ## Claim C4 — pairing payload key cross-check -/

/-- Counterexample to claim C4 ("a pairing record whose embedded payload
public_key differs from the signing key is rejected"): the record
`Pairing.testMismatchRecord` is correctly signed by key 2, its embedded
payload carries the foreign key 99, and `parsePairingResponse` still
returns a Contact — built from the mismatched payload. -/
theorem C4_counterexample_no_key_crosscheck :
    Pairing.testMismatchRecord.Verify = Except.ok () ∧
    Pairing.parsePairingResponse 0 Pairing.testMismatchRecord =
      some ⟨"mallory", "m1", HexField.valid ⟨99⟩, 0⟩ ∧
    HexField.valid (⟨99⟩ : PublicKey) ≠ Pairing.testMismatchRecord.PublicKey := by
  refine ⟨by decide, by decide, by decide⟩

/-- Claim C4 as amended: `parsePairingResponse` (contacts.go:312-347)
performs no cross-check of the embedded payload's public_key against the
enclosing record's signing key — a record whose decodable payload carries a
different public_key still yields a Contact, built from the payload. -/
theorem C4_parse_accepts_mismatched_key (now : Int) (record : Record) (svc : String)
    (pr : Pairing.PairingRecord)
    (hsvc : record.Services = [svc])
    (hlen : 8 ≤ svc.length)
    (hdec : Pairing.unmarshalPairingRecord (Pairing.dropChars svc 8) = some pr)
    (hmis : pr.PublicKey ≠ record.PublicKey) :
    Pairing.parsePairingResponse now record = some ⟨pr.Name, pr.Address, pr.PublicKey, now⟩ := by
  have hstep : Pairing.parsePairingResponse now record =
      (if svc.length < 8 then none
       else
        match Pairing.unmarshalPairingRecord (Pairing.dropChars svc 8) with
        | none => some ⟨record.Name, record.Address, record.PublicKey, now⟩
        | some pr2 => some ⟨pr2.Name, pr2.Address, pr2.PublicKey, now⟩) := by
    unfold Pairing.parsePairingResponse
    rw [hsvc]
  rw [hstep, if_neg (by omega : ¬ svc.length < 8), hdec]

/-- Witness for C4's amended claim at the concrete mismatched record. -/
theorem C4_parse_accepts_mismatched_key_witness :
    (Pairing.testMismatchRecord.Services = ["pairing:" ++ Pairing.testPayload.marshal] ∧
      8 ≤ ("pairing:" ++ Pairing.testPayload.marshal).length ∧
      Pairing.unmarshalPairingRecord
          (Pairing.dropChars ("pairing:" ++ Pairing.testPayload.marshal) 8) =
        some Pairing.testPayload ∧
      Pairing.testPayload.PublicKey ≠ Pairing.testMismatchRecord.PublicKey) ∧
    Pairing.parsePairingResponse 0 Pairing.testMismatchRecord =
      some ⟨Pairing.testPayload.Name, Pairing.testPayload.Address,
        Pairing.testPayload.PublicKey, 0⟩ :=
  ⟨⟨by decide, by decide, by decide, by decide⟩,
    C4_parse_accepts_mismatched_key 0 Pairing.testMismatchRecord
      ("pairing:" ++ Pairing.testPayload.marshal) Pairing.testPayload
      (by decide) (by decide) (by decide) (by decide)⟩

/-! ## Claim C5 — pairing record names -/

/-- Counterexample to claim C5 ("the joiner's response record is announced
under `code + \x22:response\x22`"): for the code `MESH-ABCD` the response
record `Join` announces — and the name `Initiate` polls — is
`pair:MESH-ABCD:response`, which differs from `MESH-ABCD:response`. -/
theorem C5_counterexample_response_name :
    Pairing.pairingResponseKey "MESH-ABCD" ≠ "MESH-ABCD" ++ ":response" ∧
    (Pairing.joinResponseRecord 0 "bob" "b1" testKey2 "MESH-ABCD").toOption.map Record.Name =
      some ("pair:" ++ "MESH-ABCD" ++ ":response") ∧
    Pairing.initiatePollName "MESH-ABCD" ≠ "MESH-ABCD" ++ ":response" := by
  refine ⟨by decide, by decide, by decide⟩

theorem String_append_resp_ne_empty (code : String) :
    "pair:" ++ code ++ ":response" ≠ "" := by
  intro h
  have h1 := congrArg String.length h
  simp only [String.length_append] at h1
  have h2 : ("pair:" : String).length = 5 := by decide
  have h3 : (":response" : String).length = 9 := by decide
  have h4 : ("" : String).length = 0 := by decide
  omega

/-- Claim C5 as amended: for every pairing code, the initiator's DHT record
is announced under the code itself, while the joiner's response record —
and the name the initiator polls for it — is `"pair:" ++ code ++
":response"`. -/
theorem C5_pairing_record_names (now : Int) (nameI nameJ addrI addrJ : String)
    (kI kJ : PrivateKey) (code : String)
    (hcode : code ≠ "") (haddrI : addrI ≠ "") (haddrJ : addrJ ≠ "") :
    (∃ r, Pairing.initiateRecord now nameI addrI kI code = Except.ok r ∧ r.Name = code) ∧
    (∃ r, Pairing.joinResponseRecord now nameJ addrJ kJ code = Except.ok r ∧
      r.Name = "pair:" ++ code ++ ":response") ∧
    Pairing.initiatePollName code = "pair:" ++ code ++ ":response" ∧
    Pairing.joinLookupName code = code := by
  refine ⟨?_, ?_, rfl, rfl⟩
  · unfold Pairing.initiateRecord Pairing.createPairingRecord CreateRecord
    rw [if_neg hcode, if_neg haddrI]
    exact ⟨_, rfl, rfl⟩
  · unfold Pairing.joinResponseRecord Pairing.createPairingRecord CreateRecord
      Pairing.pairingResponseKey
    rw [if_neg (String_append_resp_ne_empty code), if_neg haddrJ]
    exact ⟨_, rfl, rfl⟩

/-- Witness for C5's amended claim at the code `MESH-ABCD`. -/
theorem C5_pairing_record_names_witness :
    (("MESH-ABCD" : String) ≠ "" ∧ ("a1" : String) ≠ "" ∧ ("b1" : String) ≠ "") ∧
    ((∃ r, Pairing.initiateRecord 0 "ann" "a1" testKey1 "MESH-ABCD" = Except.ok r ∧
        r.Name = "MESH-ABCD") ∧
      (∃ r, Pairing.joinResponseRecord 0 "bob" "b1" testKey2 "MESH-ABCD" = Except.ok r ∧
        r.Name = "pair:" ++ "MESH-ABCD" ++ ":response") ∧
      Pairing.initiatePollName "MESH-ABCD" = "pair:" ++ "MESH-ABCD" ++ ":response" ∧
      Pairing.joinLookupName "MESH-ABCD" = "MESH-ABCD") :=
  ⟨⟨by decide, by decide, by decide⟩,
    C5_pairing_record_names 0 "ann" "bob" "a1" "b1" testKey1 testKey2 "MESH-ABCD"
      (by decide) (by decide) (by decide)⟩

/-! ## Claim C9 — wire-frame size cap -/

/-- Claim C9: for every incoming frame, a 4-byte big-endian body-length
field above 1 048 576 makes `readMessage` return an error with no message
delivered, while a length field of at most 1 048 576 is never rejected for
size — with the body bytes present, the message is delivered. -/
theorem C9_frame_size_cap (t b0 b1 b2 b3 : Nat) (body : List Nat)
    (hb0 : b0 < 256) (hb1 : b1 < 256) (hb2 : b2 < 256) (hb3 : b3 < 256) :
    (be32 b0 b1 b2 b3 > 1048576 →
      readMessage (t :: b0 :: b1 :: b2 :: b3 :: body) = Except.error "message too large") ∧
    (be32 b0 b1 b2 b3 ≤ 1048576 → be32 b0 b1 b2 b3 ≤ body.length →
      readMessage (t :: b0 :: b1 :: b2 :: b3 :: body) =
        Except.ok ⟨t, body.take (be32 b0 b1 b2 b3)⟩) := by
  have hstep : readMessage (t :: b0 :: b1 :: b2 :: b3 :: body) =
      (if be32 b0 b1 b2 b3 > maxMessageSize then Except.error "message too large"
       else if body.length < be32 b0 b1 b2 b3 then Except.error "failed to read message body"
       else Except.ok ⟨t, body.take (be32 b0 b1 b2 b3)⟩) := rfl
  have hmax : maxMessageSize = 1048576 := rfl
  constructor
  · intro h
    rw [hstep, if_pos (show be32 b0 b1 b2 b3 > maxMessageSize by omega)]
  · intro h1 h2
    rw [hstep, if_neg (show ¬ be32 b0 b1 b2 b3 > maxMessageSize by omega),
      if_neg (show ¬ body.length < be32 b0 b1 b2 b3 by omega)]

/-- Witness for C9: a frame with length field 2^24 is rejected as too
large; a frame with length field 2 and body bytes present is delivered. -/
theorem C9_frame_size_cap_witness :
    readMessage [5, 1, 0, 0, 0] = Except.error "message too large" ∧
    readMessage [5, 0, 0, 0, 2, 9, 9, 7] = Except.ok ⟨5, [9, 9]⟩ :=
  ⟨(C9_frame_size_cap 5 1 0 0 0 [] (by decide) (by decide) (by decide) (by decide)).1
      (by decide),
    (C9_frame_size_cap 5 0 0 0 2 [9, 9, 7] (by decide) (by decide) (by decide) (by decide)).2
      (by decide) (by decide)⟩

end MeshNet
